import Mathlib

/-!
Verification development for the simple-rag-chatbot repository.

We give a shallow embedding, in Lean, of the pure decision logic of the
pipeline (src/rag_pipeline.py), the markdown section segmenter
(src/markdown_loader.py), the manifest loader (src/manifest_loader.py) and
the sync entry point (src/sync_cli.py), and prove or refute the spec's
claims about them.

Modelling conventions:
- Python strings are Lean `String`s (operated on mostly via `List Char`).
- Python floats (relevance scores, temperatures, thresholds) are modelled
  as exact rationals `ℚ`; the claims under study only concern order
  comparisons, which `ℚ` reproduces faithfully for the magnitudes involved.
- Fallible Python code (statements that may raise) is modelled with
  `Except`/`Option`; `Except.error`/`none` marks an uncaught exception.
- External collaborators (vector store, LLM backend, file system, YAML/JSON
  parsers) are passed in as explicit arguments: the embedding covers the
  repository's own logic that consumes their results.
-/

namespace RAGSpec

/-! ## String helpers (Python `in`, `str.strip`, `int`) -/

/-- Python's substring containment `pat in text`, over explicit char lists:
true iff `pat` occurs as a contiguous substring of `text`. -/
def hasSubstr (pat : List Char) : List Char → Bool
  | [] => pat.isEmpty
  | c :: rest => pat.isPrefixOf (c :: rest) || hasSubstr pat rest

/-- Substring containment on `String`s (Python `pat in text`). -/
def strContains (text pat : String) : Bool :=
  hasSubstr pat.toList text.toList

/-- Python `str.isdigit` restricted to ASCII digits, as used on citation
token bodies: true iff the string is non-empty and all digits.
(Python's `isdigit` also accepts some non-ASCII digit characters; the
tokens scanned here are produced from ASCII text, where the two agree.) -/
def pyIsDigit (cs : List Char) : Bool :=
  !cs.isEmpty && cs.all Char.isDigit

/-- Digits to their numeric value, `foldl`-style. -/
def digitsToNat (cs : List Char) : Nat :=
  cs.foldl (fun a c => 10 * a + (c.toNat - 48)) 0

/-- Python `str.strip()` on a char list: drop whitespace from both ends. -/
def stripChars (cs : List Char) : List Char :=
  ((cs.dropWhile Char.isWhitespace).reverse.dropWhile Char.isWhitespace).reverse

/-- Python `str.strip()` on a `String`. -/
def pyStrip (s : String) : String :=
  String.mk (stripChars s.toList)

/-- Python `str.lower()` on a `String` (ASCII case folding, which is all
the inputs here use). -/
def pyLower (s : String) : String :=
  String.mk (s.toList.map Char.toLower)

/-- Python `int(s)` for base 10 on the strings arising here: strips
whitespace, then requires a non-empty all-digit body; otherwise raises
`ValueError`, modelled as `none`.  (Signs and digit-group underscores,
which never occur in the inputs fed to `int` by this code, are not
modelled and would be rejected, exactly as a stray `]` is.) -/
def pyIntOfChars (cs : List Char) : Option Nat :=
  let t := stripChars cs
  if pyIsDigit t then some (digitsToNat t) else none

/-! ## Citation token extraction (src/rag_pipeline.py, `_extract_citation_tokens`)

The Python function repeatedly does `i = text.find("[S", i)`, then
`j = text.find("]", i)`, takes `token = text[i+1:j]`, keeps it when
`token.startswith("S") and token[1:].isdigit()` (emitting `"[" + token + "]"`),
and resumes at `j + 1`; it stops when either find fails.  The single-pass
scanner below is that loop: after an occurrence of `"[S"` every character up
to the next `]` belongs to the candidate token (the Python loop never
re-inspects that span either), an unterminated candidate is discarded, and
scanning resumes right after the closing bracket. -/

/-- `token.startswith("S") and token[1:].isdigit()`. -/
def tokenOK (tok : List Char) : Bool :=
  (tok.take 1 == ['S']) && pyIsDigit (tok.drop 1)

/-- The scanner: `acc = none` while looking for `"[S"`, `acc = some revTok`
(reversed candidate body, starting `['S']`) while looking for the `]`. -/
def scanCitations : Option (List Char) → List Char → List (List Char)
  | none, [] => []
  | none, '[' :: 'S' :: rest => scanCitations (some ['S']) rest
  | none, _ :: rest => scanCitations none rest
  | some _, [] => []
  | some acc, ']' :: rest =>
      (if tokenOK acc.reverse then [('[' :: acc.reverse) ++ [']']] else [])
        ++ scanCitations none rest
  | some acc, c :: rest => scanCitations (some (c :: acc)) rest

/-- `_extract_citation_tokens`: the emitted tokens, each of the form
`"[S<digits>]"`, in scan order. -/
def extractCitationTokens (text : String) : List (List Char) :=
  scanCitations none text.toList

/-! ## The query pipeline (src/rag_pipeline.py, `RAGPipeline.query`) -/

/-- A chunk's metadata as the pipeline reads it back from the vector store
(`source`, `title`, `section_path`, `chunk`, `page`, `allowed_roles`)
together with its text. -/
structure Doc where
  content : String
  source : String
  title : Option String := none
  sectionPath : Option String := none
  chunkNum : Option Nat := none
  page : Option Nat := none
  allowedRoles : List String := []
deriving DecidableEq

/-- `RetrievedChunk` of src/rag_pipeline.py: document, relevance score,
1-based rank used for citations. -/
structure RetrievedChunk where
  doc : Doc
  score : ℚ
  idx : Nat
deriving DecidableEq

/-- The fixed abstention answer (src/rag_pipeline.py lines 256 and 322). -/
def abstentionAnswer : String :=
  "Not in KB yet. Please add the relevant SOP/policy document to the knowledge base."

/-- `label = title or src` — Python truthiness: a missing or empty title
falls back to the source name. -/
def labelOf (d : Doc) : String :=
  match d.title with
  | some t => if t = "" then d.source else t
  | none => d.source

/-- The `parts` list: `chunk {n}` when present, `page {n}` when present,
`section {s}` when present and non-empty (Python truthiness on `section`). -/
def partsOf (d : Doc) : List String :=
  (match d.chunkNum with
    | some c => ["chunk " ++ toString c]
    | none => []) ++
  (match d.page with
    | some p => ["page " ++ toString p]
    | none => []) ++
  (match d.sectionPath with
    | some s => if s = "" then [] else ["section " ++ s]
    | none => [])

/-- The human-readable reference: `label (part, part, ...)`, or just the
label when there are no parts. -/
def refOf (d : Doc) : String :=
  let parts := partsOf d
  if parts.isEmpty then labelOf d
  else labelOf d ++ " (" ++ String.intercalate ", " parts ++ ")"

/-- One `source_map` entry: rank and reference text. -/
structure SourceEntry where
  id : Nat
  ref : String
deriving DecidableEq

/-- The `source_map` built one entry per retrieved chunk, in rank order. -/
def sourceMapOf (retrieved : List RetrievedChunk) : List SourceEntry :=
  retrieved.map (fun r => ⟨r.idx, refOf r.doc⟩)

/-- Ascending insertion into a sorted `List Nat`. -/
def insertAsc (n : Nat) : List Nat → List Nat
  | [] => [n]
  | m :: rest => if n ≤ m then n :: m :: rest else m :: insertAsc n rest

/-- Python `sorted(set(l))`: distinct elements in ascending order. -/
def sortedDistinct (l : List Nat) : List Nat :=
  l.dedup.foldr insertAsc []

/-- `used_ids = sorted({int(x[2:]) for x in _extract_citation_tokens(answer)})`.
Note the slice `x[2:]` keeps the trailing `]` of the token `"[S<digits>]"`,
so `int` is applied to `"<digits>]"`; `none` is the resulting `ValueError`. -/
def usedIdsOf (answer : String) : Option (List Nat) :=
  ((extractCitationTokens answer).mapM (fun x => pyIntOfChars (x.drop 2))).map
    sortedDistinct

/-- The appended sources section: Python builds
`lines = ["\n\nSources:"] + ["- [S{id}] {ref}" ...]` and appends
`"\n" + "\n".join(lines)` to the answer. -/
def mkSourcesSection (used : List SourceEntry) : String :=
  "\n" ++ String.intercalate "\n"
    ("\n\nSources:" :: used.map (fun s => "- [S" ++ toString s.id ++ "] " ++ s.ref))

/-- `best_score = retrieved[0].score if retrieved else 0.0`. -/
def bestScoreOf (retrieved : List RetrievedChunk) : ℚ :=
  match retrieved with
  | [] => 0
  | r :: _ => r.score

/-- How one `query()` call ends:
`notInKB` = the abstention return (logged with status `not_in_kb`);
`answered` = the generation-path return (logged with status `answered`);
`valueError` = an uncaught `ValueError` from `int(x[2:])` (nothing logged). -/
inductive QueryOutcome where
  | notInKB (answer : String) (sources : List String)
  | answered (answer : String) (sources : List String)
  | valueError
deriving DecidableEq

/-- The audit status written for an outcome (`none` = no record written). -/
def auditStatusOf : QueryOutcome → Option String
  | .notInKB _ _ => some "not_in_kb"
  | .answered _ _ => some "answered"
  | .valueError => none

/-- The returned answer text, when the call returns at all. -/
def answerOf : QueryOutcome → Option String
  | .notInKB a _ => some a
  | .answered a _ => some a
  | .valueError => none

/-- The returned sources list, when the call returns at all. -/
def sourcesOf : QueryOutcome → Option (List String)
  | .notInKB _ s => some s
  | .answered _ s => some s
  | .valueError => none

/-- One `query()` execution: how it ended, and whether `self.llm.invoke`
was reached. -/
structure QueryExec where
  outcome : QueryOutcome
  genCalled : Bool
deriving DecidableEq

/-- `RAGPipeline.query` from the retrieval result on: the abstention guard,
the generation call (its raw text response is the `genAnswer` argument),
the citation-integrity gate, `used_ids`/`used_sources` reconciliation, the
conditional `Sources` section append, and the return value.  Logging is
reflected through `auditStatusOf` on the outcome. -/
def runQuery (retrieved : List RetrievedChunk) (threshold : ℚ)
    (genAnswer : String) : QueryExec :=
  if retrieved = [] ∨ bestScoreOf retrieved < threshold then
    ⟨QueryOutcome.notInKB abstentionAnswer [], false⟩
  else
    let sourceMap := sourceMapOf retrieved
    let a0 := pyStrip genAnswer
    let a1 := if !strContains a0 "[S" && !strContains a0 "Not in KB yet" then
                abstentionAnswer
              else a0
    match usedIdsOf a1 with
    | none => ⟨QueryOutcome.valueError, true⟩
    | some usedIds =>
      let usedSources :=
        if !usedIds.isEmpty then sourceMap.filter (fun s => usedIds.contains s.id)
        else sourceMap
      let a2 := if !strContains a1 "Sources" then a1 ++ mkSourcesSection usedSources
                else a1
      ⟨QueryOutcome.answered a2 (usedSources.map SourceEntry.ref), true⟩

/-! ## Retrieval filtering (src/rag_pipeline.py, `RAGPipeline._retrieve`)

The vector-store call `similarity_search_with_relevance_scores` is external;
its result list of `(document, score)` pairs is the `pairs` argument below.
What the repository itself does with it — the `allowed` role predicate, the
`[:k]` truncation and the 1-based rank assignment — is modelled here. -/

/-- The `allowed` closure: `not role or role == "(all)"` passes everything
(Python truthiness: `None` and `""` are both falsy); an empty
`allowed_roles` list passes everything; otherwise membership. -/
def allowedRole (role : Option String) (d : Doc) : Bool :=
  match role with
  | none => true
  | some r =>
    if r = "" || r = "(all)" then true
    else if d.allowedRoles.isEmpty then true
    else d.allowedRoles.contains r

/-- `enumerate(filtered, start=i)` wrapped into `RetrievedChunk`s. -/
def withRanks (i : Nat) : List (Doc × ℚ) → List RetrievedChunk
  | [] => []
  | (d, s) :: rest => ⟨d, s, i⟩ :: withRanks (i + 1) rest

/-- `_retrieve` after the vector-store call: filter by role, truncate to
`k`, assign 1-based ranks. -/
def retrieveFilter (pairs : List (Doc × ℚ)) (role : Option String) (k : Nat) :
    List RetrievedChunk :=
  withRanks 1 ((pairs.filter (fun p => allowedRole role p.1)).take k)

/-! ## Chunk numbering (src/rag_pipeline.py, `RAGPipeline._index_documents`)

The text splitter is external; its output `splits` (each split carrying a
`source`) is the input below.  The repository's own logic assigns
`metadata["chunk"] = per_source_counts[src]` where the count for `src` is
incremented just before, starting from `.get(src, 0)`. -/

/-- One split emitted by the text splitter: its text and its `source`. -/
structure SplitDoc where
  text : String
  source : String
deriving DecidableEq

/-- A split with its assigned per-source chunk number. -/
structure NumberedChunk where
  doc : SplitDoc
  chunkNum : Nat
deriving DecidableEq

/-- The numbering loop, with the running `per_source_counts` map as an
explicit function. -/
def assignChunkNumbers (counts : String → Nat) : List SplitDoc → List NumberedChunk
  | [] => []
  | d :: rest =>
    let n := counts d.source + 1
    ⟨d, n⟩ :: assignChunkNumbers (fun s => if s = d.source then n else counts s) rest

/-- `_index_documents`' numbering pass: counts start empty. -/
def indexChunkNumbers (splits : List SplitDoc) : List NumberedChunk :=
  assignChunkNumbers (fun _ => 0) splits

/-- Occurrences of source `s` in a split list. -/
def occCount (s : String) (l : List SplitDoc) : Nat :=
  (l.filter (fun d => d.source = s)).length

/-! ## Markdown segmentation (src/markdown_loader.py, `load_markdown_with_sections`)

The function reads the file's text, iterates over `text.splitlines()`, and
works with a heading regex `^(#{1,6})\s+(.*)$` applied to each stripped
line.  The model takes the `splitlines()` decomposition of the text as its
input; the full text is recovered as the lines joined by a newline (the only
information lost — the flavour of line terminators and a trailing
terminator — is whitespace, which every use below strips away). -/

/-- A produced segment: `page_content`, `source`, `section_path`. -/
structure Segment where
  text : String
  source : String
  sectionPath : String
deriving DecidableEq

/-- The heading regex `^(#{1,6})\s+(.*)$` matched against `line.strip()`:
1–6 leading `#`s followed by at least one whitespace character; returns the
level and `group(2).strip()` (the title). -/
def matchHeading (line : String) : Option (Nat × String) :=
  let cs := stripChars line.toList
  let n := (cs.takeWhile (fun c => c = '#')).length
  if 1 ≤ n ∧ n ≤ 6 then
    match cs.drop n with
    | [] => none
    | c :: rest =>
      if c.isWhitespace then
        some (n, pyStrip (String.mk ((c :: rest).dropWhile Char.isWhitespace)))
      else none
  else none

/-- The loop state: emitted documents, heading stack, current section path,
line buffer. -/
structure MDState where
  docs : List Segment
  stack : List String
  path : String
  buf : List String
deriving DecidableEq

/-- `"\n".join(lines)`. -/
def joinLines (ls : List String) : String :=
  String.intercalate "\n" ls

/-- The `flush()` closure: emit the buffered lines as one segment when
their joined, stripped content is non-empty; always clear the buffer. -/
def flushMD (src : String) (st : MDState) : MDState :=
  let content := pyStrip (joinLines st.buf)
  if content = "" then ⟨st.docs, st.stack, st.path, []⟩
  else ⟨st.docs ++ [⟨content, src, st.path⟩], st.stack, st.path, []⟩

/-- One loop iteration: a heading line flushes, truncates the stack to
`level - 1`, pushes the title and recomputes the `" > "`-joined path; any
other line is buffered. -/
def mdStep (src : String) (st : MDState) (line : String) : MDState :=
  match matchHeading line with
  | some (level, title) =>
    let st1 := flushMD src st
    let stack1 := st1.stack.take (level - 1) ++ [title]
    ⟨st1.docs, stack1, String.intercalate " > " stack1, st1.buf⟩
  | none => ⟨st.docs, st.stack, st.path, st.buf ++ [line]⟩

/-- `load_markdown_with_sections` on the `splitlines()` decomposition of
the text: run the loop, final flush, and the no-headings fallback
(`if not docs and text.strip(): ...` emits the whole text with empty
section path). -/
def loadMarkdownSegments (src : String) (lines : List String) : List Segment :=
  let st := lines.foldl (mdStep src) ⟨[], [], "", []⟩
  let st1 := flushMD src st
  if st1.docs = [] ∧ pyStrip (joinLines lines) ≠ "" then
    [⟨joinLines lines, src, ""⟩]
  else st1.docs

/-! ## Manifest loading (src/manifest_loader.py, `load_manifest`)

The file system and the JSON/YAML parsers are external: path existence and
the two parse outcomes are arguments.  The repository's own logic is the
existence check and the suffix dispatch: `.yaml`/`.yml` (lowercased) go to
the YAML loader and *every other path* goes to the JSON loader. -/

/-- A `ManifestDoc` dataclass. -/
structure ManifestDoc where
  docId : Option String
  title : Option String
  path : String
  tags : List String
  allowedRoles : List String
deriving DecidableEq

/-- Errors a manifest load can surface.  `unsupportedFormat` is the
error the spec names for unrecognized extensions; it is part of the
vocabulary so that claims about it can be stated — `load_manifest` itself
has no such check. -/
inductive ManifestError where
  | notFound (path : String)
  | unsupportedFormat (suffix : String)
  | yamlDependencyMissing
  | parseFailure
deriving DecidableEq

/-- `load_manifest`: `FileNotFoundError` when the path does not exist, the
YAML loader for `.yaml`/`.yml` suffixes (case-insensitive), the JSON loader
for everything else. -/
def loadManifest (pathExists : Bool) (suffix : String) (path : String)
    (yamlResult jsonResult : Except ManifestError (List ManifestDoc)) :
    Except ManifestError (List ManifestDoc) :=
  if !pathExists then Except.error (ManifestError.notFound path)
  else if pyLower suffix = ".yaml" ∨ pyLower suffix = ".yml" then yamlResult
  else jsonResult

/-! ## Sync entry point (src/sync_cli.py, `main`) with
src/rag_pipeline.py, `load_manifest_docs` / `_load_path` / `_index_documents`

The file system is external: each manifest document carries whether its
file exists, its content hash when it does, and what the loader yields for
it.  `Except.error` models an exception escaping `main` — the process dies
on a traceback with nothing further written. -/

/-- One manifest document as the sync run sees it. -/
structure SyncDoc where
  path : String
  docId : Option String
  /-- lowercased extension, with the dot -/
  ext : String
  fileExists : Bool
  /-- what `file_hash` returns when the file exists -/
  contentHash : String
  /-- what the format loader yields (page texts) when the file exists -/
  loadedTexts : List String
deriving DecidableEq

/-- `_load_path`: the `.md`/`.pdf`/`.txt` loaders read the file and raise
`FileNotFoundError` when it is missing; any other extension returns `[]`
without touching the file. -/
def loadPathResult (d : SyncDoc) : Except String (List String) :=
  if d.ext = ".md" ∨ d.ext = ".pdf" ∨ d.ext = ".txt" then
    if d.fileExists then Except.ok d.loadedTexts
    else Except.error "FileNotFoundError"
  else Except.ok []

/-- `load_manifest_docs` + `_index_documents`: load every manifest entry in
order (the first exception propagates), then index; indexing raises
`ValueError("No supported documents found.")` on an empty batch. -/
def loadManifestDocs (docs : List SyncDoc) : Except String (List String) :=
  match docs.mapM loadPathResult with
  | Except.error e => Except.error e
  | Except.ok texts =>
    let all := texts.flatten
    if all = [] then Except.error "No supported documents found."
    else Except.ok all

/-- What a completed sync run reports. -/
structure SyncResult where
  errors : List String
  docsTotal : Nat
  docsIndexed : Nat
  docsFailed : Nat
  exitCode : Nat
  /-- a `sync_runs` row was written -/
  syncRunLogged : Bool
deriving DecidableEq

/-- `sync_cli.main` from the loaded manifest on: the hashing loop collects
per-document errors (`file_hash` raises exactly when the file cannot be
opened), then `load_manifest_docs` re-processes *all* manifest entries with
no error handling, then the sync run is logged and the exit code is 0 iff
the error list is empty. -/
def syncMain (docs : List SyncDoc) : Except String SyncResult :=
  let errors := (docs.filter (fun d => !d.fileExists)).map (fun d => d.path)
  match loadManifestDocs docs with
  | Except.error e => Except.error e
  | Except.ok _ =>
    Except.ok
      ⟨errors, docs.length, docs.length - errors.length, errors.length,
        if errors.isEmpty then 0 else 1, true⟩

/-! ## Temperature handling (src/rag_pipeline.py lines 314–317, src/config.py)

`query` runs `if temperature is not None: self.llm.temperature =
float(temperature)` and then invokes the backend, which reads
`self.llm.temperature`.  The attribute is an object field: it persists
across calls.  The LLM object is constructed with `config.TEMPERATURE`. -/

/-- `config.TEMPERATURE`'s default, `float(os.getenv("TEMPERATURE", "0.3"))`. -/
def defaultTemperature : ℚ := 3 / 10

/-- `self.llm.temperature` after the (conditional) assignment — which is
also the value the backend is invoked with. -/
def llmTempAfter (llmTemp : ℚ) (temperature : Option ℚ) : ℚ :=
  match temperature with
  | some t => t
  | none => llmTemp

/-- The temperatures a sequence of `query` calls hands to the backend,
threading the persistent `self.llm.temperature` field. -/
def llmTempTrace (llmTemp : ℚ) : List (Option ℚ) → List ℚ
  | [] => []
  | t :: rest =>
    let cur := llmTempAfter llmTemp t
    cur :: llmTempTrace cur rest

/-! ## Query pipeline lemmas -/

/-- When retrieval is empty or the best score is below the threshold,
`query` returns the abstention result without reaching generation. -/
lemma runQuery_abstain (retrieved : List RetrievedChunk) (threshold : ℚ) (gen : String)
    (h : retrieved = [] ∨ bestScoreOf retrieved < threshold) :
    runQuery retrieved threshold gen = ⟨QueryOutcome.notInKB abstentionAnswer [], false⟩ := by
  unfold runQuery
  rw [if_pos h]

/-- When the abstention guard does not fire, generation is reached and the
outcome is never the `not_in_kb` result. -/
lemma runQuery_pass_shape (retrieved : List RetrievedChunk) (threshold : ℚ) (gen : String)
    (h : ¬(retrieved = [] ∨ bestScoreOf retrieved < threshold)) :
    (runQuery retrieved threshold gen).genCalled = true ∧
    ∀ a s, (runQuery retrieved threshold gen).outcome ≠ QueryOutcome.notInKB a s := by
  unfold runQuery
  rw [if_neg h]
  constructor
  · dsimp only
    split <;> rfl
  · intro a s
    dsimp only
    split <;> simp

/-- C1: the pipeline returns the fixed abstention answer with an empty
source list, logs status `not_in_kb` and makes no generation call, exactly
when retrieval returned no results or the rank-1 score is strictly below
the threshold; and a best score exactly equal to the threshold proceeds to
generation. -/
theorem query_abstention_iff :
    (∀ (retrieved : List RetrievedChunk) (threshold : ℚ) (gen : String),
      ((runQuery retrieved threshold gen).outcome =
          QueryOutcome.notInKB abstentionAnswer [] ∧
        (runQuery retrieved threshold gen).genCalled = false ∧
        auditStatusOf (runQuery retrieved threshold gen).outcome = some "not_in_kb") ↔
      (retrieved = [] ∨ bestScoreOf retrieved < threshold)) ∧
    (∀ (r : RetrievedChunk) (rs : List RetrievedChunk) (gen : String),
      (runQuery (r :: rs) r.score gen).genCalled = true) := by
  constructor
  · intro retrieved threshold gen
    constructor
    · intro h
      by_contra hc
      exact (runQuery_pass_shape retrieved threshold gen hc).2 _ _ h.1
    · intro hcond
      rw [runQuery_abstain retrieved threshold gen hcond]
      exact ⟨rfl, rfl, rfl⟩
  · intro r rs gen
    have h : ¬((r :: rs) = [] ∨ bestScoreOf (r :: rs) < r.score) := by
      simp [bestScoreOf]
    exact (runQuery_pass_shape _ _ gen h).1

/-- Witness for C1 at concrete inputs: empty retrieval abstains; a best
score exactly at the threshold 0.35 reaches generation. -/
theorem query_abstention_iff_witness :
    (runQuery [] (35/100) "q").outcome = QueryOutcome.notInKB abstentionAnswer [] ∧
    (runQuery [⟨⟨"t", "s", none, none, none, none, []⟩, 35/100, 1⟩] (35/100)
        "ok").genCalled = true :=
  ⟨((query_abstention_iff.1 [] (35/100) "q").mpr (Or.inl rfl)).1,
    query_abstention_iff.2 ⟨⟨"t", "s", none, none, none, none, []⟩, 35/100, 1⟩ [] "ok"⟩

/-- C2 counterexample: the generated response `"See [Sx and more."`
contains no well-formed `[S<digits>]` citation token and is not the
abstention string, yet the code keeps it (the gate tests only for the
raw substring `"[S"`): the returned answer still carries the generated
prose and contains no abstention text at all. -/
theorem citation_gate_counterexample :
    extractCitationTokens (pyStrip "See [Sx and more.") = [] ∧
    pyStrip "See [Sx and more." ≠ abstentionAnswer ∧
    answerOf (runQuery [⟨⟨"t", "s", none, none, none, none, []⟩, 1, 1⟩] 0
        "See [Sx and more.").outcome =
      some ("See [Sx and more." ++ mkSourcesSection [⟨1, "s"⟩]) ∧
    strContains ("See [Sx and more." ++ mkSourcesSection [⟨1, "s"⟩])
        "Not in KB yet" = false := by
  exact ⟨by decide, by decide, by decide, by decide⟩

/-- C2 amended: the gate fires exactly on the raw substring tests — when
the (stripped) generated response contains neither the substring `"[S"`
nor the substring `"Not in KB yet"`, it is discarded and the fixed
abstention answer is substituted; the returned and logged answer is that
abstention string with a `Sources` section listing every retrieved
reference appended, and the logged status is still `answered`. -/
theorem citation_gate_substitution (retrieved : List RetrievedChunk) (threshold : ℚ)
    (gen : String)
    (hpass : ¬(retrieved = [] ∨ bestScoreOf retrieved < threshold))
    (h1 : strContains (pyStrip gen) "[S" = false)
    (h2 : strContains (pyStrip gen) "Not in KB yet" = false) :
    runQuery retrieved threshold gen =
      ⟨QueryOutcome.answered
          (abstentionAnswer ++ mkSourcesSection (sourceMapOf retrieved))
          ((sourceMapOf retrieved).map SourceEntry.ref), true⟩ := by
  unfold runQuery
  rw [if_neg hpass]
  have hu : usedIdsOf abstentionAnswer = some [] := by decide
  have hs : strContains abstentionAnswer "Sources" = false := by decide
  simp only [h1, h2, Bool.not_false, Bool.and_self, if_true, hu, hs,
    List.isEmpty_nil, Bool.not_true, Bool.false_eq_true, if_false]

/-- Witness for the amended C2: an uncited, non-abstention response is
replaced by the abstention answer plus the full sources section. -/
theorem citation_gate_substitution_witness :
    runQuery [⟨⟨"t", "s", none, none, none, none, []⟩, 1, 1⟩] 0 "I cannot say." =
      ⟨QueryOutcome.answered
          (abstentionAnswer ++
            mkSourcesSection (sourceMapOf [⟨⟨"t", "s", none, none, none, none, []⟩, 1, 1⟩]))
          ((sourceMapOf [⟨⟨"t", "s", none, none, none, none, []⟩, 1, 1⟩]).map
            SourceEntry.ref), true⟩ :=
  citation_gate_substitution [⟨⟨"t", "s", none, none, none, none, []⟩, 1, 1⟩] 0
    "I cannot say." (by decide) (by decide) (by decide)

/-- C4: the claim describes the sources list of an answered query, but on
the code any generated answer that actually cites a source crashes:
`used_ids` applies `int` to `x[2:]`, which for the token `"[S1]"` is the
string `"1]"` — a `ValueError`.  The query neither returns nor logs. -/
theorem cited_sources_crash :
    (runQuery [⟨⟨"Returns must be processed within 30 days.", "policy.md",
        none, none, none, none, []⟩, 1, 1⟩] 0 "Within 30 days [S1].").outcome =
      QueryOutcome.valueError ∧
    usedIdsOf "Within 30 days [S1]." = none ∧
    extractCitationTokens "Within 30 days [S1]." = [['[', 'S', '1', ']']] := by
  exact ⟨by decide, by decide, by decide⟩

/-- C10: a cited rank with no retrieved chunk (here `[S9]` with one
retrieved chunk) is claimed to be silently dropped with status `answered`;
instead the same `int(x[2:])` slip raises `ValueError` (`int("9]")`)
before the sources list is ever filtered, so the query crashes and logs
nothing. -/
theorem nonexistent_rank_crash :
    (runQuery [⟨⟨"t", "s", none, none, none, none, []⟩, 1, 1⟩] 0
        "Cited [S9] only.").outcome = QueryOutcome.valueError ∧
    auditStatusOf (runQuery [⟨⟨"t", "s", none, none, none, none, []⟩, 1, 1⟩] 0
        "Cited [S9] only.").outcome = none := by
  exact ⟨by decide, by decide⟩

/-! ## Retrieval filtering lemmas -/

/-- Every chunk produced by rank assignment came from the underlying
pair list. -/
lemma mem_withRanks (i : Nat) (l : List (Doc × ℚ)) (rc : RetrievedChunk)
    (h : rc ∈ withRanks i l) : (rc.doc, rc.score) ∈ l := by
  induction l generalizing i with
  | nil => simp [withRanks] at h
  | cons p rest ih =>
    obtain ⟨d, s⟩ := p
    simp only [withRanks, List.mem_cons] at h
    cases h with
    | inl h => subst h; simp
    | inr h => exact List.mem_cons_of_mem _ (ih (i + 1) h)

/-- Rank assignment preserves length. -/
lemma withRanks_length (i : Nat) (l : List (Doc × ℚ)) :
    (withRanks i l).length = l.length := by
  induction l generalizing i with
  | nil => rfl
  | cons p rest ih =>
    obtain ⟨d, s⟩ := p
    simp [withRanks, ih]

/-- The rank at position `j` of `withRanks i` is `i + j`. -/
lemma withRanks_get_idx (l : List (Doc × ℚ)) (i j : Nat)
    (h : j < (withRanks i l).length) :
    ((withRanks i l).get ⟨j, h⟩).idx = i + j := by
  induction l generalizing i j with
  | nil => simp [withRanks] at h
  | cons p rest ih =>
    obtain ⟨d, s⟩ := p
    cases j with
    | zero => rfl
    | succ j2 =>
      have h2 : j2 < (withRanks (i + 1) rest).length := by
        have := h
        simp only [withRanks, List.length_cons] at this
        omega
      have := ih (i + 1) j2 h2
      simp only [withRanks, List.get_eq_getElem, List.getElem_cons_succ] at this ⊢
      omega

/-- C3: with a real requesting role, a chunk with non-empty `allowedRoles`
appears in the results only if the role is a member; a chunk with empty
`allowedRoles` passes the role filter for every role; an unset role or the
`"(all)"` sentinel disables filtering entirely; and results are truncated
to at most `k` entries carrying 1-based contiguous ranks. -/
theorem retrieve_role_filtering :
    (∀ (pairs : List (Doc × ℚ)) (r : String) (k : Nat) (rc : RetrievedChunk),
      rc ∈ retrieveFilter pairs (some r) k → r ≠ "" → r ≠ "(all)" →
      rc.doc.allowedRoles ≠ [] → rc.doc.allowedRoles.contains r = true) ∧
    (∀ (role : Option String) (d : Doc),
      d.allowedRoles = [] → allowedRole role d = true) ∧
    (∀ (pairs : List (Doc × ℚ)) (k : Nat),
      retrieveFilter pairs none k = withRanks 1 (pairs.take k) ∧
      retrieveFilter pairs (some "(all)") k = withRanks 1 (pairs.take k)) ∧
    (∀ (pairs : List (Doc × ℚ)) (role : Option String) (k : Nat),
      (retrieveFilter pairs role k).length ≤ k ∧
      ∀ (i : Nat) (h : i < (retrieveFilter pairs role k).length),
        ((retrieveFilter pairs role k).get ⟨i, h⟩).idx = i + 1) := by
  refine ⟨?_, ?_, ?_, ?_⟩
  · intro pairs r k rc hmem hr1 hr2 hne
    have hpair := mem_withRanks 1 _ rc hmem
    have hfil := List.take_subset k _ hpair
    have hp := (List.mem_filter.mp hfil).2
    simp only [allowedRole] at hp
    rw [if_neg (by simp [hr1, hr2])] at hp
    rw [if_neg (by simpa using hne)] at hp
    exact hp
  · intro role d h
    cases role with
    | none => rfl
    | some r =>
      simp only [allowedRole, h]
      split
      · rfl
      · rfl
  · intro pairs k
    constructor
    · have : (fun p : Doc × ℚ => allowedRole none p.1) = fun _ => true := by
        funext p; rfl
      rw [retrieveFilter, this, List.filter_true]
    · have : (fun p : Doc × ℚ => allowedRole (some "(all)") p.1) = fun _ => true := by
        funext p; rfl
      rw [retrieveFilter, this, List.filter_true]
  · intro pairs role k
    constructor
    · rw [retrieveFilter, withRanks_length]
      have := List.length_take k (pairs.filter (fun p => allowedRole role p.1))
      omega
    · intro i h
      simp only [retrieveFilter] at h ⊢
      rw [withRanks_get_idx _ 1 i h]
      omega

/-- Witness for C3: with role `"qc"`, a chunk restricted to `{"qc"}` is
retrieved and indeed carries a membership-checked role list. -/
theorem retrieve_role_filtering_witness :
    (⟨⟨"t", "s", none, none, none, none, ["qc"]⟩, 1, 1⟩ : RetrievedChunk) ∈
      retrieveFilter [(⟨"t", "s", none, none, none, none, ["qc"]⟩, 1)] (some "qc") 5 ∧
    (⟨⟨"t", "s", none, none, none, none, ["qc"]⟩, 1, 1⟩ :
        RetrievedChunk).doc.allowedRoles.contains "qc" = true :=
  ⟨by decide,
    retrieve_role_filtering.1 [(⟨"t", "s", none, none, none, none, ["qc"]⟩, 1)] "qc" 5
      ⟨⟨"t", "s", none, none, none, none, ["qc"]⟩, 1, 1⟩ (by decide) (by decide)
      (by decide) (by decide)⟩

/-! ## Chunk numbering lemmas -/

/-- Numbering preserves length. -/
lemma assignChunkNumbers_length (counts : String → Nat) (l : List SplitDoc) :
    (assignChunkNumbers counts l).length = l.length := by
  induction l generalizing counts with
  | nil => rfl
  | cons d rest ih => simp [assignChunkNumbers, ih]

/-- Counting occurrences through a cons. -/
lemma occCount_cons (s : String) (d : SplitDoc) (l : List SplitDoc) :
    occCount s (d :: l) = (if d.source = s then 1 else 0) + occCount s l := by
  simp only [occCount, List.filter_cons]
  split
  · next hp =>
    rw [if_pos (by simpa using hp)]
    simp [Nat.add_comm]
  · next hp =>
    rw [if_neg (by simpa using hp)]
    simp

/-- Counting occurrences through an append. -/
lemma occCount_append (s : String) (l1 l2 : List SplitDoc) :
    occCount s (l1 ++ l2) = occCount s l1 + occCount s l2 := by
  simp [occCount, List.filter_append]

/-- The chunk number assigned at position `i` is the starting count for
that source plus the number of its occurrences in the first `i + 1`
splits. -/
lemma assignChunkNumbers_get (l : List SplitDoc) (counts : String → Nat) (i : Nat)
    (h1 : i < (assignChunkNumbers counts l).length) (h2 : i < l.length) :
    (assignChunkNumbers counts l).get ⟨i, h1⟩ =
      ⟨l.get ⟨i, h2⟩,
        counts (l.get ⟨i, h2⟩).source +
          occCount (l.get ⟨i, h2⟩).source (l.take (i + 1))⟩ := by
  induction l generalizing counts i with
  | nil => exact absurd h2 (by simp)
  | cons d rest ih =>
    cases i with
    | zero =>
      show (⟨d, counts d.source + 1⟩ : NumberedChunk) = _
      simp [occCount, List.filter_cons]
    | succ j =>
      have hr1 : j < (assignChunkNumbers
          (fun s => if s = d.source then counts d.source + 1 else counts s)
          rest).length := by
        rw [assignChunkNumbers_length]
        have := h2
        simp only [List.length_cons] at this
        omega
      have hr2 : j < rest.length := by
        have := h2
        simp only [List.length_cons] at this
        omega
      have key := ih (fun s => if s = d.source then counts d.source + 1 else counts s)
        j hr1 hr2
      have lhs_eq : (assignChunkNumbers counts (d :: rest)).get ⟨j + 1, h1⟩ =
          (assignChunkNumbers
            (fun s => if s = d.source then counts d.source + 1 else counts s)
            rest).get ⟨j, hr1⟩ := by
        simp [assignChunkNumbers, List.get_eq_getElem]
      rw [lhs_eq, key]
      have get_eq : ((d :: rest).get ⟨j + 1, h2⟩) = rest.get ⟨j, hr2⟩ := by
        simp [List.get_eq_getElem]
      rw [get_eq]
      have take_eq : (d :: rest).take (j + 1 + 1) = d :: rest.take (j + 1) := rfl
      rw [take_eq, occCount_cons]
      rcases eq_or_ne (rest.get ⟨j, hr2⟩).source d.source with hss | hss
    <;> simp only [NumberedChunk.mk.injEq, true_and]
      · rw [if_pos hss, if_pos hss.symm, hss]
        omega
      · rw [if_neg hss, if_neg (fun hc => hss hc.symm)]
        omega

/-- C5: after indexing, chunk numbers within one source are 1-based and
strictly increase with document position (hence are pairwise distinct). -/
theorem chunk_numbers_strictly_increasing (splits : List SplitDoc) (i j : Nat)
    (hi : i < (indexChunkNumbers splits).length)
    (hj : j < (indexChunkNumbers splits).length)
    (hij : i < j)
    (hsrc : ((indexChunkNumbers splits).get ⟨i, hi⟩).doc.source =
      ((indexChunkNumbers splits).get ⟨j, hj⟩).doc.source) :
    1 ≤ ((indexChunkNumbers splits).get ⟨i, hi⟩).chunkNum ∧
    ((indexChunkNumbers splits).get ⟨i, hi⟩).chunkNum <
      ((indexChunkNumbers splits).get ⟨j, hj⟩).chunkNum := by
  have hi2 : i < splits.length := by
    rw [indexChunkNumbers, assignChunkNumbers_length] at hi
    exact hi
  have hj2 : j < splits.length := by
    rw [indexChunkNumbers, assignChunkNumbers_length] at hj
    exact hj
  have hgi := assignChunkNumbers_get splits (fun _ => 0) i hi hi2
  have hgj := assignChunkNumbers_get splits (fun _ => 0) j hj hj2
  simp only [indexChunkNumbers] at hsrc ⊢
  rw [hgi, hgj] at hsrc ⊢
  simp only at hsrc ⊢
  set s := (splits.get ⟨i, hi2⟩).source with hs_def
  have hsj : (splits.get ⟨j, hj2⟩).source = s := hsrc.symm
  rw [hsj]
  -- the element at position i is in the first i+1 splits, so its source
  -- occurs there at least once
  have hmi : splits.get ⟨i, hi2⟩ ∈ splits.take (i + 1) := by
    have hlt : i < (splits.take (i + 1)).length := by
      rw [List.length_take]
      omega
    have e := List.getElem_take splits (j := i + 1) (i := i) (h := hlt)
    rw [List.get_eq_getElem, ← e]
    exact List.getElem_mem hlt
  have hocc_i : 1 ≤ occCount s (splits.take (i + 1)) := by
    have hmf : splits.get ⟨i, hi2⟩ ∈
        (splits.take (i + 1)).filter (fun d => d.source = s) := by
      refine List.mem_filter.mpr ⟨hmi, ?_⟩
      simp [hs_def]
    exact List.length_pos_of_mem hmf
  -- the first i+1 splits are an initial part of the first j splits
  have hmono : occCount s (splits.take (i + 1)) ≤ occCount s (splits.take j) := by
    have heq : splits.take (i + 1) = (splits.take j).take (i + 1) := by
      rw [List.take_take]
      have : (i + 1) ⊓ j = i + 1 := by omega
      rw [this]
    rw [heq]
    exact List.Sublist.length_le
      ((List.take_sublist (i + 1) (splits.take j)).filter _)
  -- position j adds one more occurrence of s
  have hstep : occCount s (splits.take (j + 1)) = occCount s (splits.take j) + 1 := by
    have hsj2 : splits[j].source = s := by
      rw [← List.get_eq_getElem splits ⟨j, hj2⟩]
      exact hsj
    rw [List.take_succ, List.getElem?_eq_getElem hj2]
    simp only [Option.toList_some, occCount_append]
    simp [occCount, List.filter_cons, hsj2]
  omega

/-- Witness for C5: in a split list with sources `s1, s2, s1`, the two
`s1` chunks get numbers 1 and 2. -/
theorem chunk_numbers_strictly_increasing_witness :
    1 ≤ ((indexChunkNumbers [⟨"a", "s1"⟩, ⟨"b", "s2"⟩, ⟨"c", "s1"⟩]).get
        ⟨0, by decide⟩).chunkNum ∧
    ((indexChunkNumbers [⟨"a", "s1"⟩, ⟨"b", "s2"⟩, ⟨"c", "s1"⟩]).get
        ⟨0, by decide⟩).chunkNum <
      ((indexChunkNumbers [⟨"a", "s1"⟩, ⟨"b", "s2"⟩, ⟨"c", "s1"⟩]).get
        ⟨2, by decide⟩).chunkNum :=
  chunk_numbers_strictly_increasing [⟨"a", "s1"⟩, ⟨"b", "s2"⟩, ⟨"c", "s1"⟩] 0 2
    (by decide) (by decide) (by decide) (by decide)

/-! ## Markdown segmentation lemmas -/

/-- Over heading-free lines, the segmentation loop only accumulates the
buffer. -/
lemma mdFold_no_heading (src : String) (lines : List String) (st : MDState)
    (h : ∀ l ∈ lines, matchHeading l = none) :
    lines.foldl (mdStep src) st = ⟨st.docs, st.stack, st.path, st.buf ++ lines⟩ := by
  induction lines generalizing st with
  | nil => simp
  | cons l ls ih =>
    have hl : matchHeading l = none := h l (List.mem_cons_self l ls)
    have hls : ∀ x ∈ ls, matchHeading x = none :=
      fun x hx => h x (List.mem_cons_of_mem l hx)
    rw [List.foldl_cons]
    have step : mdStep src st l = ⟨st.docs, st.stack, st.path, st.buf ++ [l]⟩ := by
      simp [mdStep, hl]
    rw [step, ih _ hls]
    simp

/-- C6: a markdown document with no heading-marker lines yields exactly one
segment with empty `sectionPath` when its text is not entirely blank, and
zero segments when it is. -/
theorem markdown_no_headings (src : String) (lines : List String)
    (h : ∀ l ∈ lines, matchHeading l = none) :
    loadMarkdownSegments src lines =
      if pyStrip (joinLines lines) = "" then []
      else [⟨pyStrip (joinLines lines), src, ""⟩] := by
  unfold loadMarkdownSegments
  rw [mdFold_no_heading src lines ⟨[], [], "", []⟩ h]
  by_cases hb : pyStrip (joinLines lines) = ""
  · simp [flushMD, hb]
  · simp [flushMD, hb]

/-- Witness for C6: a non-blank heading-free document gives one segment
with empty section path; a blank one gives none. -/
theorem markdown_no_headings_witness :
    loadMarkdownSegments "d.md" ["hello", "world"] =
      [⟨"hello\nworld", "d.md", ""⟩] ∧
    loadMarkdownSegments "d.md" ["", "  "] = [] :=
  ⟨(markdown_no_headings "d.md" ["hello", "world"] (by decide)).trans (by decide),
    (markdown_no_headings "d.md" ["", "  "] (by decide)).trans (by decide)⟩

/-! ## Sync entry point: C7 -/

/-- C7: the claim says per-document load failures are collected, the rest
are processed, one SyncRun row reports them, and the exit status is 1.
Instead, `main` re-loads every manifest document through
`load_manifest_docs`, which has no error handling: a single missing file
(already collected as an error by the hashing loop) raises
`FileNotFoundError` out of `main`, so no SyncRun row is written and the
process dies on a traceback. -/
theorem sync_missing_doc_aborts :
    syncMain [⟨"a.md", none, ".md", true, "h-a", ["text a"]⟩,
        ⟨"b.md", none, ".md", false, "", []⟩] =
      Except.error "FileNotFoundError" ∧
    (([⟨"a.md", none, ".md", true, "h-a", ["text a"]⟩,
        ⟨"b.md", none, ".md", false, "", []⟩] : List SyncDoc).filter
      (fun d => !d.fileExists)).map (fun d => d.path) = ["b.md"] := by
  exact ⟨rfl, by decide⟩

/-! ## Manifest loading: C8 -/

/-- C8 counterexample: a manifest path with the unrecognized extension
`.toml` does not fail with an unsupported-format error — `load_manifest`
hands every non-YAML suffix to the JSON loader, and if the bytes happen to
parse as JSON the load succeeds. -/
theorem manifest_unsupported_ext_counterexample :
    loadManifest true ".toml" "m.toml" (Except.error ManifestError.parseFailure)
        (Except.ok [⟨none, none, "a.md", [], []⟩]) =
      Except.ok [⟨none, none, "a.md", [], []⟩] := rfl

/-- C8 amended: a missing path fails with `FileNotFoundError`; a `.yaml` or
`.yml` suffix (case-insensitive) selects the YAML loader; every other
suffix selects the JSON loader; and no unsupported-format error is ever
produced by the dispatch (one can only come out if a parser argument
already carried it). -/
theorem manifest_dispatch (pathExists : Bool) (suffix path : String)
    (yamlResult jsonResult : Except ManifestError (List ManifestDoc)) :
    (pathExists = false →
      loadManifest pathExists suffix path yamlResult jsonResult =
        Except.error (ManifestError.notFound path)) ∧
    (pathExists = true → (pyLower suffix = ".yaml" ∨ pyLower suffix = ".yml") →
      loadManifest pathExists suffix path yamlResult jsonResult = yamlResult) ∧
    (pathExists = true → pyLower suffix ≠ ".yaml" → pyLower suffix ≠ ".yml" →
      loadManifest pathExists suffix path yamlResult jsonResult = jsonResult) ∧
    ((∀ e, yamlResult ≠ Except.error (ManifestError.unsupportedFormat e)) →
      (∀ e, jsonResult ≠ Except.error (ManifestError.unsupportedFormat e)) →
      ∀ e, loadManifest pathExists suffix path yamlResult jsonResult ≠
        Except.error (ManifestError.unsupportedFormat e)) := by
  refine ⟨?_, ?_, ?_, ?_⟩
  · intro hpe
    subst hpe
    rfl
  · intro hpe hs
    subst hpe
    unfold loadManifest
    rw [if_neg (by simp)]
    rw [if_pos hs]
  · intro hpe hs1 hs2
    subst hpe
    unfold loadManifest
    rw [if_neg (by simp)]
    rw [if_neg (by simp [hs1, hs2])]
  · intro hy hj e
    unfold loadManifest
    split
    · simp
    · split
      · exact hy e
      · exact hj e

/-- Witness for the amended C8: a missing path is a `FileNotFoundError`,
and an existing `.TOML` path goes to the JSON loader. -/
theorem manifest_dispatch_witness :
    loadManifest false ".json" "m.json" (Except.ok []) (Except.ok []) =
      Except.error (ManifestError.notFound "m.json") ∧
    loadManifest true ".TOML" "m.TOML" (Except.error ManifestError.parseFailure)
        (Except.ok []) = Except.ok [] :=
  ⟨(manifest_dispatch false ".json" "m.json" (Except.ok []) (Except.ok [])).1 rfl,
    (manifest_dispatch true ".TOML" "m.TOML" (Except.error ManifestError.parseFailure)
        (Except.ok [])).2.2.1 rfl (by decide) (by decide)⟩

/-! ## Temperature handling: C9 -/

/-- C9 counterexample: pass temperature 1 on the first call, omit it on the
second — the second generation runs at temperature 1, not at the configured
default 0.3: `self.llm.temperature` was overwritten persistently. -/
theorem temperature_persistence_counterexample :
    llmTempTrace defaultTemperature [some 1, none] = [1, 1] ∧
    (1 : ℚ) ≠ defaultTemperature := by
  exact ⟨rfl, by norm_num [defaultTemperature]⟩

/-- C9 amended: generation uses the caller-supplied temperature when one is
given, and that value persists as `self.llm.temperature`; a call that
omits the argument uses the current field value, which equals the
configured default only as long as no earlier call supplied a
temperature. -/
theorem temperature_semantics :
    (∀ (llmTemp t : ℚ) (rest : List (Option ℚ)),
      llmTempTrace llmTemp (some t :: rest) = t :: llmTempTrace t rest) ∧
    (∀ (llmTemp : ℚ) (rest : List (Option ℚ)),
      llmTempTrace llmTemp (none :: rest) = llmTemp :: llmTempTrace llmTemp rest) ∧
    (∀ (llmTemp : ℚ) (calls : List (Option ℚ)),
      (∀ c ∈ calls, c = none) →
      llmTempTrace llmTemp calls = calls.map (fun _ => llmTemp)) := by
  refine ⟨fun _ _ _ => rfl, fun _ _ => rfl, ?_⟩
  intro llmTemp calls h
  induction calls with
  | nil => rfl
  | cons c cs ih =>
    have hc : c = none := h c (List.mem_cons_self c cs)
    subst hc
    have ihh := ih (fun x hx => h x (List.mem_cons_of_mem none hx))
    simp [llmTempTrace, llmTempAfter, ihh]

/-- Witness for the amended C9: with no overrides anywhere, every call runs
at the configured default temperature. -/
theorem temperature_semantics_witness :
    llmTempTrace defaultTemperature [none, none] =
      [defaultTemperature, defaultTemperature] := by
  have h := temperature_semantics.2.2 defaultTemperature [none, none] (by decide)
  simpa using h

end RAGSpec
